import Mathlib

/-!
Verification development for the failure-first API testing tool.

The Python sources embedded here (shallowly) are:
  * `src/input_generation/edge_cases.py` — edge-case candidate generation,
    schema walking, payload synthesis;
  * `src/failure_detection/rules.py` — the rule-based failure classifier;
  * `src/reporting/report.py` — failure grouping and curl-command rendering.

Modelling conventions:
  * Python numbers are modelled exactly: `Int` for `int`, and `PyFloat`
    (NaN / ±inf / exact fraction) for `float`.  The binary-float rounding of
    decimal literals is abstracted to exact fractions (e.g. `1e-10` is the
    exact fraction 1/10^10); negative zero `-0.0` is collapsed to `0`, which
    matches Python's `==`/`<=` semantics on these values.
  * Python `None` is `Val.null`; a dict is an insertion-ordered association
    list (`dSet` updates in place, preserving position, like a Python dict).
  * Python stdlib primitives that the repository merely calls —
    `json.loads` parse success, `bytes.decode(..., errors="replace")`, and
    `urllib.parse.urlencode` — are abstracted as the fields of `PyPrims` and
    passed through; no claim depends on their internals.
-/

/-- Exact model of a Python float: NaN, the two infinities, or an exact
fraction `num/den` (`den` is intended positive; all catalog values use it
so).  Comparisons follow IEEE/Python: NaN compares false with everything. -/
inductive PyFloat where
  | nan
  | inf
  | ninf
  | fin (num : Int) (den : Nat)
deriving DecidableEq, Repr

/-- `a <= b` on Python floats: false whenever either side is NaN, otherwise
the usual extended-real order, with fractions compared by cross
multiplication. -/
def PyFloat.le : PyFloat → PyFloat → Bool
  | .nan, _ => false
  | _, .nan => false
  | .ninf, _ => true
  | _, .ninf => false
  | _, .inf => true
  | .inf, _ => false
  | .fin a b, .fin c d => decide (a * (d : Int) ≤ c * (b : Int))

/-- `math.isnan`. -/
def PyFloat.isnan : PyFloat → Bool
  | .nan => true
  | _ => false

/-- A Python/JSON value: `None`, bool, int, float, str, list, or dict
(insertion-ordered association list). -/
inductive Val where
  | null
  | bool (b : Bool)
  | int (n : Int)
  | float (f : PyFloat)
  | str (s : String)
  | list (xs : List Val)
  | dict (kvs : List (String × Val))

/-- `v is None` check (Python identity test against `None`). -/
def Val.isNull : Val → Bool
  | .null => true
  | _ => false

/-- Numeric view of a value: `int` and `float` are numbers, nothing else is.
Used for the bound filters, which in the source only ever see numbers. -/
def Val.asFloat? : Val → Option PyFloat
  | .int n => some (.fin n 1)
  | .float f => some f
  | _ => Option.none

/-- `None in candidates` membership test specialised to `None` (the only
membership test the generator performs). -/
def hasNull : List Val → Bool
  | [] => false
  | .null :: _ => true
  | _ :: rest => hasNull rest

/-- Dict lookup (`d.get(k)`), first (unique) matching key. -/
def dGet {α : Type} : List (String × α) → String → Option α
  | [], _ => Option.none
  | (k, v) :: rest, key => if k = key then some v else dGet rest key

/-- Dict store (`d[k] = v`): updates an existing key in place (keeping its
insertion position, as a Python dict does) or appends a new key. -/
def dSet {α : Type} : List (String × α) → String → α → List (String × α)
  | [], key, v => [(key, v)]
  | (k, w) :: rest, key, v =>
      if k = key then (k, v) :: rest else (k, w) :: dSet rest key v

/-- `needle` is a prefix of `l` (character lists). -/
def startsWithL : List Char → List Char → Bool
  | _, [] => true
  | [], _ :: _ => false
  | a :: as, b :: bs => a = b && startsWithL as bs

/-- Substring containment on character lists (`needle in haystack`). -/
def hasSubstr : List Char → List Char → Bool
  | [], needle => needle.isEmpty
  | l@(_ :: rest), needle => startsWithL l needle || hasSubstr rest needle

/-- Python `sub in s` for strings. -/
def containsS (s sub : String) : Bool := hasSubstr s.data sub.data

/-- Lexicographic `<=` on character lists by code point — the order Python's
`sorted` uses on strings. -/
def lexLe : List Char → List Char → Bool
  | [], _ => true
  | _ :: _, [] => false
  | a :: as, b :: bs =>
      if a.toNat < b.toNat then true
      else if b.toNat < a.toNat then false
      else lexLe as bs

/-- String `<=` by code points. -/
def strLe (a b : String) : Bool := lexLe a.data b.data

/-- Insert into a sorted list (stable: ties keep the earlier element first). -/
def insertSorted (x : String) : List String → List String
  | [] => [x]
  | y :: ys => if strLe x y then x :: y :: ys else y :: insertSorted x ys

/-- Python `sorted` on strings, modelled as a stable insertion sort with the
same code-point order; on the duplicate-free key lists it is applied to,
every correct stable sort produces the same output. -/
def pySorted : List String → List String
  | [] => []
  | x :: xs => insertSorted x (pySorted xs)

/-- Replace every occurrence of `pat` in the list, left to right and
non-overlapping, like Python `str.replace` (fuel = list length; each step
consumes at least one character). -/
def listReplaceF : Nat → List Char → List Char → List Char → List Char
  | 0, l, _, _ => l
  | _ + 1, [], _, _ => []
  | n + 1, c :: rest, pat, rep =>
      if startsWithL (c :: rest) pat && !pat.isEmpty then
        rep ++ listReplaceF n (List.drop (pat.length - 1) rest) pat rep
      else
        c :: listReplaceF n rest pat rep

/-- Python `s.replace(pat, rep)` (for the non-empty patterns the source uses). -/
def strReplace (s pat rep : String) : String :=
  String.mk (listReplaceF s.data.length s.data pat.data rep.data)

/-- Python `path.split(".")`: splits on every dot, keeping empty segments. -/
def splitDotAux : List Char → List Char → List String
  | [], cur => [String.mk cur.reverse]
  | c :: rest, cur =>
      if c = '.' then String.mk cur.reverse :: splitDotAux rest []
      else splitDotAux rest (c :: cur)

/-- `path.split(".")`. -/
def pySplitDot (s : String) : List String := splitDotAux s.data []

/-- ASCII upcase of one character. -/
def charUpper (c : Char) : Char :=
  if 97 ≤ c.toNat && c.toNat ≤ 122 then Char.ofNat (c.toNat - 32) else c

/-- ASCII downcase of one character. -/
def charLower (c : Char) : Char :=
  if 65 ≤ c.toNat && c.toNat ≤ 90 then Char.ofNat (c.toNat + 32) else c

/-- ASCII-faithful model of `str.upper` (the source only upcases HTTP method
names). -/
def pyUpper (s : String) : String := String.mk (s.data.map charUpper)

/-- ASCII-faithful model of `str.lower` (the source lowercases header names
and exception messages). -/
def pyLower (s : String) : String := String.mk (s.data.map charLower)

/-- A single-quote character, and the string consisting of it. -/
def squoteC : Char := Char.ofNat 39

/-- The one-character string `'`. -/
def squote : String := String.mk [squoteC]

/-- `"x" * n`. -/
def strRep (n : Nat) (c : Char) : String := String.mk (List.replicate n c)

/-- Left brace as a string. -/
def lbrace : String := "\x7b"

/-- Right brace as a string. -/
def rbrace : String := "\x7d"

/-- The value of a JSON-Schema `type` key: a single type name or a list of
type names (nullability via a `"null"` member). -/
inductive SchemaType where
  | s (t : String)
  | l (ts : List String)
deriving DecidableEq, Repr

/-- A JSON-Schema node, restricted to exactly the keys the source reads:
`type`, `nullable`, `enum`, `minimum`, `maximum`, `format`, `minLength`,
`maxLength`, `minItems`, `items`, `properties`, `$ref`.
`items? = Option.none` means the key is absent (the source then substitutes
an empty dict `{}`); `items? = some Option.none` means present but not a
dict (the `isinstance` guard then skips recursion); `items? = some (some t)`
is a schema-valued `items`.  Property values are restricted to dict-valued
schemas: on a non-dict property value the Python generator raises
`AttributeError` inside `_get_candidates_for_type` when that property is
among the first five sampled, so the model covers the domain on which the
code is total. -/
inductive Schema where
  | mk
      (type? : Option SchemaType)
      (nullableFlag : Bool)
      (enum? : Option (List Val))
      (minimum? : Option PyFloat)
      (maximum? : Option PyFloat)
      (format? : Option String)
      (minLength? : Option Nat)
      (maxLength? : Option Nat)
      (minItems? : Option Nat)
      (items? : Option (Option Schema))
      (properties : List (String × Schema))
      (hasRef : Bool)

/-- `type` field accessor. -/
def Schema.type? : Schema → Option SchemaType
  | .mk ty _ _ _ _ _ _ _ _ _ _ _ => ty

/-- `nullable` flag accessor (`schema.get("nullable", False)`). -/
def Schema.nullableFlag : Schema → Bool
  | .mk _ nf _ _ _ _ _ _ _ _ _ _ => nf

/-- `enum` accessor. -/
def Schema.enum? : Schema → Option (List Val)
  | .mk _ _ en _ _ _ _ _ _ _ _ _ => en

/-- `minimum` accessor. -/
def Schema.minimum? : Schema → Option PyFloat
  | .mk _ _ _ mn _ _ _ _ _ _ _ _ => mn

/-- `maximum` accessor. -/
def Schema.maximum? : Schema → Option PyFloat
  | .mk _ _ _ _ mx _ _ _ _ _ _ _ => mx

/-- `properties` accessor (`schema.get("properties", {})`; an absent key and
an empty dict behave identically in the source). -/
def Schema.properties : Schema → List (String × Schema)
  | .mk _ _ _ _ _ _ _ _ _ _ props _ => props

/-- The empty schema `{}`. -/
def schemaEmpty : Schema :=
  .mk Option.none false Option.none Option.none Option.none Option.none
    Option.none Option.none Option.none Option.none [] false

/-- Lines 96-106 of `edge_cases.py`: resolve the effective scalar type and
nullability from the raw `type` value (string, list, or absent, with
`fallback_type` substituted for an absent key before the list test) and the
`nullable` flag (consulted only when `type` is not a list). -/
def resolveType (ty : Option SchemaType) (nullableFlag : Bool)
    (fallback : Option String) : Option String × Bool :=
  match ty with
  | some (.l ts) =>
      if ts.contains "null" then
        (match ts.find? (fun t => !(t == "null")) with
         | some t => some t
         | Option.none => fallback, true)
      else
        (match ts with
         | t :: _ => some t
         | [] => fallback, false)
  | some (.s t) => (some t, nullableFlag)
  | Option.none => (fallback, nullableFlag)

/-- `NUMBER_EDGE_CASES` (line 15).  In the source `0`, `1` and `-1` are int
literals inside a float-annotated list; the annotation does not coerce
them, so they are kept as ints here too.  `-0.0` is the float zero. -/
def NUMBER_EDGE_CASES : List Val :=
  [.int 0, .float (.fin 0 1), .int 1, .int (-1),
   .float (.fin 1 2), .float (.fin (-1) 2),
   .float .inf, .float .ninf, .float .nan,
   .float (.fin 10000000000 1), .float (.fin (-10000000000) 1),
   .float (.fin 1 10000000000), .float (.fin (-1) 10000000000)]

/-- `INTEGER_EDGE_CASES` (line 31). -/
def INTEGER_EDGE_CASES : List Val :=
  [.int 0, .int 1, .int (-1),
   .int (2 ^ 31 - 1), .int (-(2 ^ 31)),
   .int (2 ^ 63 - 1), .int (-(2 ^ 63))]

/-- `STRING_EDGE_CASES` (line 41). -/
def STRING_EDGE_CASES : List Val :=
  [.str "", .str " ", .str "a", .str "A", .str "0", .str "hello",
   .str "Hello, World!", .str (strRep 1000 'A'), .str "\x00", .str "\n",
   .str "\t", .str "\\", .str "\"", .str "日本語",
   .str ("emoji: " ++ String.mk [Char.ofNat 128512]),
   .str ("sql" ++ squote ++ " OR " ++ squote ++ "1" ++ squote ++ "="
         ++ squote ++ "1"),
   .str "<script>alert(1)</script>", .str "null", .str "true", .str "false"]

/-- `BOOLEAN_EDGE_CASES` (line 64). -/
def BOOLEAN_EDGE_CASES : List Val := [.bool true, .bool false]

/-- `ARRAY_EDGE_CASES` (line 66). -/
def ARRAY_EDGE_CASES : List Val :=
  [.list [], .list [.null], .list [.int 0], .list [.str ""], .list [.bool true]]

/-- `OBJECT_EDGE_CASES` (line 74). -/
def OBJECT_EDGE_CASES : List Val :=
  [.dict [], .dict [("key", .null)], .dict [("key", .str "")],
   .dict [("key", .int 0)]]

/-- The closure `_add_null` (line 112): prepend `None` when the schema is
nullable and `None` is not already a member. -/
def addNull (nullable : Bool) (candidates : List Val) : List Val :=
  if nullable && !(hasNull candidates) then .null :: candidates else candidates

/-- The number-branch bound filter (line 122):
`not math.isnan(v) and mn <= v <= mx`. -/
def numPred (mn mx : PyFloat) (v : Val) : Bool :=
  match v.asFloat? with
  | some f => !f.isnan && PyFloat.le mn f && PyFloat.le f mx
  | Option.none => false

/-- The integer-branch bound filter (line 130): `mn <= v <= mx`. -/
def intPred (mn mx : PyFloat) (v : Val) : Bool :=
  match v.asFloat? with
  | some f => PyFloat.le mn f && PyFloat.le f mx
  | Option.none => false

/-- Format-specific probe strings (lines 135-143). -/
def formatCases (fmt : String) : List Val :=
  if fmt = "email" then [.str "a@b.com", .str "invalid", .str "a@", .str "@b.com"]
  else if fmt = "uuid" then
    [.str "00000000-0000-0000-0000-000000000000", .str "invalid"]
  else if fmt = "date-time" then [.str "2024-01-01T00:00:00Z", .str "invalid"]
  else if fmt = "date" then [.str "2024-01-01", .str "invalid"]
  else []

/-- `minLength` probe (line 144). -/
def minLenCases : Option Nat → List Val
  | some n => [.str (strRep n 'x')]
  | Option.none => []

/-- `maxLength` probe (line 146): `"x" * min(maxLength, 1000)`. -/
def maxLenCases : Option Nat → List Val
  | some n => [.str (strRep (min n 1000) 'x')]
  | Option.none => []

/-- What `_get_candidates_for_type({})` returns: the empty schema resolves to
no type and is not nullable, so the unknown-type catalog comes back
unchanged.  Used where the source calls the generator on the `{}` it
substitutes for an absent `items` key (written out so the recursion stays
structural; the theorem `getCandidates_schemaEmpty` checks the equation). -/
def emptySchemaCandidates : List Val :=
  [.null, .int 0, .int 1, .str "", .str " ", .bool true, .bool false,
   .list [], .dict []]

mutual

/-- `_get_candidates_for_type` (lines 82-186): candidate values for one
schema node — enum verbatim first, then the per-type catalogs with bound /
format / length refinements, null prepended for nullable schemas. -/
def getCandidates : Schema → Option String → List Val
  | .mk ty nf en mn mx fm minL maxL minI items props _, fallback =>
    let r := resolveType ty nf fallback
    let schema_type := r.1
    let nullable := r.2
    match en with
    | some vs => vs
    | Option.none =>
      if schema_type = some "number" then
        let cands := NUMBER_EDGE_CASES
        let cands :=
          if mn.isSome || mx.isSome then
            cands.filter (numPred (mn.getD .ninf) (mx.getD .inf))
          else cands
        addNull nullable cands
      else if schema_type = some "integer" then
        let cands := INTEGER_EDGE_CASES
        let cands :=
          if mn.isSome || mx.isSome then
            cands.filter
              (intPred (mn.getD (.fin (-(2 ^ 63)) 1)) (mx.getD (.fin (2 ^ 63 - 1) 1)))
          else cands
        addNull nullable cands
      else if schema_type = some "string" then
        addNull nullable
          (STRING_EDGE_CASES ++ formatCases (fm.getD "") ++ minLenCases minL
            ++ maxLenCases maxL)
      else if schema_type = some "boolean" then
        addNull nullable BOOLEAN_EDGE_CASES
      else if schema_type = some "array" then
        let cands :=
          match items with
          | some (some t) =>
              ARRAY_EDGE_CASES
                ++ ((getCandidates t Option.none).take 5).map (fun c => Val.list [c])
          | Option.none =>
              ARRAY_EDGE_CASES
                ++ (emptySchemaCandidates.take 5).map (fun c => Val.list [c])
          | some Option.none => ARRAY_EDGE_CASES
        let cands :=
          cands ++ (match minI with
            | some n => [Val.list (List.replicate n .null)]
            | Option.none => [])
        addNull nullable cands
      else if schema_type = some "object" then
        let cands :=
          match props with
          | [] => OBJECT_EDGE_CASES
          | _ :: _ =>
              let o := Val.dict (samplePropsFirst 5 props)
              OBJECT_EDGE_CASES ++ [o, o, o]
        addNull nullable cands
      else
        addNull nullable
          [.null, .int 0, .int 1, .str "", .str " ", .bool true, .bool false,
           .list [], .dict []]

/-- The object-branch sampling loop (lines 170-177): for up to the first
five properties, take the first candidate of each property's own
generation; a property with no candidates contributes no key.  The source
builds the same dict three times inside `range(3)`. -/
def samplePropsFirst : Nat → List (String × Schema) → List (String × Val)
  | _, [] => []
  | 0, _ :: _ => []
  | n + 1, (key, ps) :: rest =>
      match getCandidates ps Option.none with
      | [] => samplePropsFirst n rest
      | c :: _ => (key, c) :: samplePropsFirst n rest

end

/-- The field-path → candidate-list mapping built by the walker. -/
def PathDict : Type := List (String × List Val)

/-- `path or "value"`: the root path is recorded under the literal key
`"value"`. -/
def pathOr (path : String) : String := if path = "" then "value" else path

/-- `q` is a structural descendant path of `p`: it starts with `p + "."` or
with `p + "[]"` (the test of line 251). -/
def descB (p q : String) : Bool :=
  startsWithL q.data (p.data ++ ['.']) || startsWithL q.data (p.data ++ ['[', ']'])

mutual

/-- The inner `_walk` of `generate_edge_cases` (lines 204-234), with the
mutated `result` dict passed as an accumulator.  Dispatch is on the RAW
`type` value (so a list-typed node, even `["object"]`, lands in the final
scalar branch).  An unresolved `$ref` contributes nothing.  An absent
`items` key behaves as the empty dict: its path gets the empty-schema
candidates and the recursive `_walk({})` call adds nothing further. -/
def walk : Schema → String → PathDict → PathDict
  | s@(.mk ty _ _ _ _ _ _ _ _ items props rf), path, acc =>
    if rf then acc
    else if ty = some (.s "object") then
      let acc := dSet acc (pathOr path) (getCandidates s Option.none)
      walkProps props path acc
    else if ty = some (.s "array") then
      let acc := dSet acc (pathOr path) (getCandidates s Option.none)
      match items with
      | some (some t) =>
          let ipath := path ++ "[]"
          let acc := dSet acc ipath (getCandidates t Option.none)
          walk t ipath acc
      | Option.none => dSet acc (path ++ "[]") emptySchemaCandidates
      | some Option.none => acc
    else if ty ≠ Option.none then
      dSet acc (pathOr path) (getCandidates s Option.none)
    else acc

/-- The property loop of the object branch (lines 213-220): each declared
property gets its candidate list at `path.key` (bare `key` at the root) and
is then walked recursively.  (Non-dict property values are outside the
model's schema type; see `Schema`.) -/
def walkProps : List (String × Schema) → String → PathDict → PathDict
  | [], _, acc => acc
  | (key, ps) :: rest, path, acc =>
      let fpath := if path = "" then key else path ++ "." ++ key
      let acc := dSet acc fpath (getCandidates ps Option.none)
      let acc := walk ps fpath acc
      walkProps rest path acc

end

/-- `generate_edge_cases` (line 189): walk the schema from the empty root
path. -/
def generate_edge_cases (s : Schema) : PathDict := walk s "" []

/-- The leaf filter of `generate_edge_cases_flat` (lines 248-252): keep a
path only when no LATER path in the (lexicographically sorted) list is a
structural descendant of it. -/
def leafFilter : List String → List String
  | [] => []
  | p :: rest =>
      if rest.any (fun p2 => descB p p2) then leafFilter rest
      else p :: leafFilter rest

/-- `generate_edge_cases_flat` (line 239): sort the walked paths, keep the
leaves, and rebuild the mapping in leaf order. -/
def generate_edge_cases_flat (s : Schema) : PathDict :=
  let all_cases := generate_edge_cases s
  let leaf_paths := leafFilter (pySorted (all_cases.map Prod.fst))
  leaf_paths.filterMap (fun p => (dGet all_cases p).map (fun cs => (p, cs)))

/-- `field_overrides.get(path)`: a missing key yields Python `None`, which is
`Val.null` — indistinguishable from an explicit `None` override. -/
def ovGet (ov : List (String × Val)) (path : String) : Val :=
  match dGet ov path with
  | some v => v
  | Option.none => .null

/-- `_set_nested` (line 282): walk/create intermediate dicts along the dotted
path and store the value at the last segment.  (When an intermediate key
holds a non-dict value the Python loop keeps it and the subsequent item
assignment raises `TypeError`; the model substitutes a fresh dict there.
The payload-synthesis claims never reach that situation: intermediate paths
are only generated for object-typed nodes, whose stored value is a dict or
is skipped.) -/
def set_nested (obj : List (String × Val)) : List String → Val → List (String × Val)
  | [], _ => obj
  | [k], v => dSet obj k v
  | k :: k2 :: rest, v =>
      let sub :=
        match dGet obj k with
        | some (Val.dict d) => d
        | some _ => []
        | Option.none => []
      dSet obj k (Val.dict (set_nested sub (k2 :: rest) v))

/-- The per-path loop of `generate_sample_object` (lines 270-278): skip
array-item paths and the empty path, override else first candidate, and
skip the field when the resulting value is `None`. -/
def sampleLoop (ov : List (String × Val)) :
    PathDict → List (String × Val) → List (String × Val)
  | [], obj => obj
  | (path, candidates) :: rest, obj =>
      if containsS path "[]" || path = "" then sampleLoop ov rest obj
      else
        let parts := pySplitDot path
        let value := ovGet ov path
        let value :=
          if value.isNull && !candidates.isEmpty then candidates.headD .null
          else value
        let obj := if !value.isNull then set_nested obj parts value else obj
        sampleLoop ov rest obj

/-- `generate_sample_object` (line 256): build one payload from first
candidates, with dotted-path overrides. -/
def generate_sample_object (s : Schema) (field_overrides : List (String × Val)) :
    List (String × Val) :=
  sampleLoop field_overrides (generate_edge_cases s) []

/-- `FailureType` (rules.py line 18), with the Python enum's string values. -/
inductive FailureType where
  | none
  | crash
  | server_error
  | timeout
  | invalid_json
  | client_error
deriving DecidableEq, Repr

/-- The enum member's `.value` string. -/
def FailureType.value : FailureType → String
  | .none => "none"
  | .crash => "crash"
  | .server_error => "server_error"
  | .timeout => "timeout"
  | .invalid_json => "invalid_json"
  | .client_error => "client_error"

/-- Response body as held by `HttpExecutionResult`: a `str`, a `bytes`
value, or an already-parsed Python object (the dict/list case of
`_is_valid_json_response`). -/
inductive BodyVal where
  | str (s : String)
  | bytes (bs : List Nat)
  | pyObj (v : Val)

/-- `HttpExecutionResult` (http_executor.py line 16).  `response_body = None`
is `Option.none`. -/
structure HttpExecutionResult where
  status_code : Option Int
  response_body : Option BodyVal
  latency_seconds : Option PyFloat
  exception : Option String
  headers : List (String × String)
  success : Bool

/-- Abstracted Python stdlib primitives (see the file header): whether
`json.loads` succeeds on a string, `bytes.decode("utf-8", errors="replace")`,
and `urllib.parse.urlencode(..., doseq=True)`. -/
structure PyPrims where
  jsonLoadsOk : String → Bool
  decodeReplace : List Nat → String
  urlencode : List (String × Val) → String

/-- Truthiness of the `exception` field: `None` and the empty string are
falsy (`if result.exception:`). -/
def excTruthy : Option String → Bool
  | Option.none => false
  | some s => !s.isEmpty

/-- `_is_timeout_exception` (line 111): the lowercased message contains
`"timeout"` or `"timed out"`. -/
def is_timeout_exception (exception : String) : Bool :=
  containsS (pyLower exception) "timeout" || containsS (pyLower exception) "timed out"

/-- `_expects_json` (line 117): the `Content-Type` response header (exact
key, empty default) contains `"application/json"`. -/
def expects_json (result : HttpExecutionResult) : Bool :=
  containsS ((dGet result.headers "Content-Type").getD "") "application/json"

/-- `_is_valid_json_response` (line 123): `None` body is not valid JSON; an
already-parsed dict/list is; `bytes` decode (never failing, thanks to
`errors="replace"`) and strings go through `json.loads`; anything else is
not. -/
def is_valid_json_response (pr : PyPrims) (result : HttpExecutionResult) : Bool :=
  match result.response_body with
  | Option.none => false
  | some (.pyObj v) =>
      match v with
      | .dict _ => true
      | .list _ => true
      | _ => false
  | some (.bytes bs) => pr.jsonLoadsOk (pr.decodeReplace bs)
  | some (.str s) => pr.jsonLoadsOk s

/-- `result.exception or "Request timed out"`. -/
def orElseStr (x : Option String) (y : String) : String :=
  match x with
  | some s => if s.isEmpty then y else s
  | Option.none => y

/-- The flag dict initialised at the top of `classify` (lines 51-57), in
source order. -/
def flagsInit : List (String × Bool) :=
  [("crash", false), ("server_error", false), ("client_error", false),
   ("timeout", false), ("invalid_json", false)]

/-- `FailureClassification` (line 28). -/
structure FailureClassification where
  failure_type : FailureType
  message : String
  flags : List (String × Bool)

/-- `is_failure` property (line 36). -/
def FailureClassification.is_failure (c : FailureClassification) : Bool :=
  c.failure_type ≠ FailureType.none

/-- Bool form of the chained comparison `lo <= n < hi`. -/
def statusInRange (n lo hi : Int) : Bool := decide (lo ≤ n) && decide (n < hi)

/-- `classify` (lines 41-108): the ordered early-return cascade — timeout,
crash, 5xx, 4xx, invalid JSON, none — each branch setting exactly its own
flag. -/
def classify (pr : PyPrims) (result : HttpExecutionResult) : FailureClassification :=
  let flags := flagsInit
  if excTruthy result.exception
      && is_timeout_exception ((result.exception).getD "") then
    ⟨FailureType.timeout, orElseStr result.exception "Request timed out",
      dSet flags "timeout" true⟩
  else if excTruthy result.exception then
    ⟨FailureType.crash, (result.exception).getD "", dSet flags "crash" true⟩
  else
    let step5 : FailureClassification :=
      if expects_json result && !is_valid_json_response pr result then
        ⟨FailureType.invalid_json,
          "Response claimed JSON but body is not valid JSON",
          dSet flags "invalid_json" true⟩
      else ⟨FailureType.none, "", flags⟩
    match result.status_code with
    | some n =>
        if statusInRange n 500 600 then
          ⟨FailureType.server_error, "HTTP " ++ toString n,
            dSet flags "server_error" true⟩
        else if statusInRange n 400 500 then
          ⟨FailureType.client_error, "HTTP " ++ toString n,
            dSet flags "client_error" true⟩
        else step5
    | Option.none => step5

/-- Uppercase hex digit. -/
def hexDigit (n : Nat) : String :=
  String.mk [if n < 10 then Char.ofNat (48 + n) else Char.ofNat (55 + n)]

/-- One character of `json.dumps` string output (`ensure_ascii=False`):
escape the quote, backslash and control characters, keep everything else
verbatim. -/
def jsonEscChar (c : Char) : String :=
  if c = '"' then "\\\""
  else if c = '\\' then "\\\\"
  else if c = '\n' then "\\n"
  else if c = '\t' then "\\t"
  else if c = '\r' then "\\r"
  else if c.toNat = 8 then "\\b"
  else if c.toNat = 12 then "\\f"
  else if c.toNat < 32 then
    "\\u00" ++ hexDigit (c.toNat / 16) ++ hexDigit (c.toNat % 16)
  else String.mk [c]

/-- `json.dumps` of a string. -/
def jsonDumpStr (s : String) : String :=
  "\"" ++ String.join (s.data.map jsonEscChar) ++ "\""

/-- `json.dumps` of a float.  `inf`/`nan` use Python's non-standard JSON
literals; an integral float prints as `n.0` (matching `repr` for the
catalog's magnitudes).  Python's shortest-round-trip decimal repr of other
finite floats is abstracted (marked `~`); no claim serializes such a
value. -/
def jsonDumpFloat : PyFloat → String
  | .inf => "Infinity"
  | .ninf => "-Infinity"
  | .nan => "NaN"
  | .fin num den =>
      if den = 1 then toString num ++ ".0"
      else "~" ++ toString num ++ "/" ++ toString den

mutual

/-- `json.dumps(value, ensure_ascii=False)` with the default separators
`", "` and `": "` (the source passes no `separators`, so item and key
separators carry a space). -/
def jsonDumps : Val → String
  | .null => "null"
  | .bool true => "true"
  | .bool false => "false"
  | .int n => toString n
  | .float f => jsonDumpFloat f
  | .str s => jsonDumpStr s
  | .list xs => "[" ++ jsonDumpsList xs ++ "]"
  | .dict kvs => lbrace ++ jsonDumpsDict kvs ++ rbrace

/-- Comma-space-joined list elements. -/
def jsonDumpsList : List Val → String
  | [] => ""
  | [v] => jsonDumps v
  | v :: rest => jsonDumps v ++ ", " ++ jsonDumpsList rest

/-- Comma-space-joined `"key": value` pairs. -/
def jsonDumpsDict : List (String × Val) → String
  | [] => ""
  | [(k, v)] => jsonDumpStr k ++ ": " ++ jsonDumps v
  | (k, v) :: rest => jsonDumpStr k ++ ": " ++ jsonDumps v ++ ", " ++ jsonDumpsDict rest

end

/-- `str(x)` for the scalar values that can reach the `data` branch of
`to_curl` (floats abstracted as in `jsonDumpFloat`). -/
def pyStr : Val → String
  | .null => "None"
  | .bool true => "True"
  | .bool false => "False"
  | .int n => toString n
  | .float f => jsonDumpFloat f
  | .str s => s
  | .list xs => "[" ++ jsonDumpsList xs ++ "]"
  | .dict kvs => lbrace ++ jsonDumpsDict kvs ++ rbrace

/-- `ExecutionLogEntry` (report.py line 16).  `json_body`/`data` use
`Val.null` for Python `None` (absent); `result` carries the execution
outcome directly — the dict-shaped alternative accepted by `_get_result`
is only a deserialization of the same record and is modelled as already
normalized. -/
structure ExecutionLogEntry where
  method : String
  url : String
  headers : List (String × String)
  params : Option (List (String × Val))
  json_body : Val
  data : Val
  result : Option HttpExecutionResult

/-- `to_curl` (lines 87-134): `curl -X METHOD`, escaped `-H` pairs, the URL
(with encoded query string when params are non-empty), and the body —
JSON bodies are `json.dumps`-serialized, single-quote-escaped and get an
auto content-type header when none was supplied; other `data` is rendered
via `str`/`json.dumps` under the same quote escaping. -/
def to_curl (pr : PyPrims) (entry : ExecutionLogEntry) : String :=
  let parts : List String := ["curl", "-X", pyUpper entry.method]
  let parts := parts ++ entry.headers.map (fun kv =>
    "-H \"" ++ kv.1 ++ ": "
      ++ strReplace (strReplace kv.2 "\\" "\\\\") "\"" "\\\"" ++ "\"")
  let url :=
    match entry.params with
    | some (p :: ps) =>
        let qs := pr.urlencode (p :: ps)
        let sep := if containsS entry.url "?" then "&" else "?"
        entry.url ++ sep ++ qs
    | _ => entry.url
  let parts := parts ++ ["\"" ++ url ++ "\""]
  let parts :=
    if !entry.json_body.isNull then
      let body_str := jsonDumps entry.json_body
      let escaped := strReplace body_str squote (squote ++ "\\" ++ squote ++ squote)
      let parts := parts ++ ["-d " ++ squote ++ escaped ++ squote]
      if (entry.headers.map (fun kv => pyLower kv.1)).contains "content-type" then
        parts
      else parts ++ ["-H \"Content-Type: application/json\""]
    else if !entry.data.isNull then
      let body_str :=
        match entry.data with
        | .dict kvs => jsonDumps (.dict kvs)
        | .list xs => jsonDumps (.list xs)
        | d => pyStr d
      let escaped := strReplace body_str squote (squote ++ "\\" ++ squote ++ squote)
      parts ++ ["-d " ++ squote ++ escaped ++ squote]
    else parts
  " ".intercalate parts

/-- Append an entry to its kind's group, creating the group at the end on
first occurrence (`defaultdict(list)` + `append`). -/
def appendGroup : List (FailureType × List ExecutionLogEntry) → FailureType →
    ExecutionLogEntry → List (FailureType × List ExecutionLogEntry)
  | [], k, e => [(k, [e])]
  | (k', l) :: rest, k, e =>
      if k' = k then (k', l ++ [e]) :: rest else (k', l) :: appendGroup rest k e

/-- One iteration of the grouping loop (lines 77-83): entries without a
result are skipped; non-failures are dropped. -/
def groupStep (pr : PyPrims) (acc : List (FailureType × List ExecutionLogEntry))
    (e : ExecutionLogEntry) : List (FailureType × List ExecutionLogEntry) :=
  match e.result with
  | Option.none => acc
  | some r =>
      let classification := classify pr r
      if classification.is_failure then
        appendGroup acc classification.failure_type e
      else acc

/-- `group_failures_by_type` (line 63). -/
def group_failures_by_type (pr : PyPrims) (entries : List ExecutionLogEntry) :
    List (FailureType × List ExecutionLogEntry) :=
  entries.foldl (groupStep pr) []

/-- `generate_report` (line 147): one curl command per failing entry, keyed
by the kind's `.value` string. -/
def generate_report (pr : PyPrims) (entries : List ExecutionLogEntry) :
    List (String × List String) :=
  (group_failures_by_type pr entries).map
    (fun g => (g.1.value, g.2.map (to_curl pr)))

/-- Spec §4.4 rule 1: captured error text contains a timeout marker (the
truthiness guard mirrors `result.exception and ...`). -/
def rule_timeout (r : HttpExecutionResult) : Bool :=
  excTruthy r.exception && is_timeout_exception ((r.exception).getD "")

/-- Spec §4.4 rule 2: any captured error text. -/
def rule_crash (r : HttpExecutionResult) : Bool := excTruthy r.exception

/-- Spec §4.4 rule 3: status code in [500, 600). -/
def rule_server_error (r : HttpExecutionResult) : Bool :=
  match r.status_code with
  | some n => statusInRange n 500 600
  | Option.none => false

/-- Spec §4.4 rule 4: status code in [400, 500). -/
def rule_client_error (r : HttpExecutionResult) : Bool :=
  match r.status_code with
  | some n => statusInRange n 400 500
  | Option.none => false

/-- Spec §4.4 rule 5: declared JSON content type with an unparseable body. -/
def rule_invalid_json (pr : PyPrims) (r : HttpExecutionResult) : Bool :=
  expects_json r && !is_valid_json_response pr r

/-- Modelled from the spec's words (§4.4): the first-match-wins priority
selection timeout > crash > server_error > client_error > invalid_json >
none, to be compared against `classify`. -/
def priorityKind (pr : PyPrims) (r : HttpExecutionResult) : FailureType :=
  if rule_timeout r then .timeout
  else if rule_crash r then .crash
  else if rule_server_error r then .server_error
  else if rule_client_error r then .client_error
  else if rule_invalid_json pr r then .invalid_json
  else .none

/-- Modelled from the spec's words (§4.4): the flag map that marks exactly
the rule that fired (none marks no rule). -/
def flagsFor : FailureType → List (String × Bool)
  | .none => flagsInit
  | .crash =>
      [("crash", true), ("server_error", false), ("client_error", false),
       ("timeout", false), ("invalid_json", false)]
  | .server_error =>
      [("crash", false), ("server_error", true), ("client_error", false),
       ("timeout", false), ("invalid_json", false)]
  | .timeout =>
      [("crash", false), ("server_error", false), ("client_error", false),
       ("timeout", true), ("invalid_json", false)]
  | .invalid_json =>
      [("crash", false), ("server_error", false), ("client_error", false),
       ("timeout", false), ("invalid_json", true)]
  | .client_error =>
      [("crash", false), ("server_error", false), ("client_error", true),
       ("timeout", false), ("invalid_json", false)]

/-- Modelled from the spec's words (§4.5): an entry has a result that
classifies to kind `k` — the reference filter the report is compared
against. -/
def failsWith (pr : PyPrims) (k : FailureType) (e : ExecutionLogEntry) : Bool :=
  match e.result with
  | some r => decide ((classify pr r).failure_type = k)
  | Option.none => false

/-- A scalar `{"type": "integer"}` schema node. -/
def intSchemaB : Schema :=
  .mk (some (.s "integer")) false Option.none Option.none Option.none Option.none
    Option.none Option.none Option.none Option.none [] false

/-- The schema of end-to-end scenario A:
`{"type": "object", "properties": {"b": {"type": "integer"}}}`. -/
def schemaC1 : Schema :=
  .mk (some (.s "object")) false Option.none Option.none Option.none Option.none
    Option.none Option.none Option.none Option.none [("b", intSchemaB)] false

/-- Concrete `PyPrims` instance for closed evaluations (the claims settled
with it never consult these primitives). -/
def prims0 : PyPrims := ⟨fun _ => false, fun _ => "", fun _ => ""⟩

/-- The reproduction-command entry of claim C2:
`{method: "POST", url: "http://h/d", jsonBody: {"a": 1, "b": 0}}`. -/
def entryC2 : ExecutionLogEntry :=
  ⟨"POST", "http://h/d", [], Option.none,
    .dict [("a", .int 1), ("b", .int 0)], .null, Option.none⟩

/-- The command `to_curl` actually builds for `entryC2`. -/
def curlC2expected : String :=
  "curl -X POST \"http://h/d\" -d " ++ squote ++ lbrace
    ++ "\"a\": 1, \"b\": 0" ++ rbrace ++ squote
    ++ " -H \"Content-Type: application/json\""

/-- A nullable number schema with both bounds:
`{"type": "number", "nullable": true, "minimum": 0, "maximum": 1}`. -/
def schemaC3 : Schema :=
  .mk (some (.s "number")) true Option.none (some (.fin 0 1)) (some (.fin 1 1))
    Option.none Option.none Option.none Option.none Option.none [] false

/-- A plain number schema with both bounds:
`{"type": "number", "minimum": 0, "maximum": 1}`. -/
def schemaC3w : Schema :=
  .mk (some (.s "number")) false Option.none (some (.fin 0 1)) (some (.fin 1 1))
    Option.none Option.none Option.none Option.none Option.none [] false

/-- An enum schema with a list `type` carrying `"null"`:
`{"type": ["integer", "null"], "enum": [7]}`. -/
def schemaC5 : Schema :=
  .mk (some (.l ["integer", "null"])) false (some [.int 7]) Option.none
    Option.none Option.none Option.none Option.none Option.none Option.none [] false

/-- A nullable number schema without enum: `{"type": ["number", "null"]}`. -/
def schemaC5w : Schema :=
  .mk (some (.l ["number", "null"])) false Option.none Option.none Option.none
    Option.none Option.none Option.none Option.none Option.none [] false

/-- An enum schema used for the C4 witness:
`{"type": "integer", "minimum": 100, "enum": ["on", 3]}`. -/
def schemaC4 : Schema :=
  .mk (some (.s "integer")) true (some [.str "on", .int 3])
    (some (.fin 100 1)) Option.none Option.none Option.none Option.none
    Option.none Option.none [] false

/-- An outcome with a 500 status and no exception. -/
def r500 : HttpExecutionResult :=
  ⟨some 500, Option.none, Option.none, Option.none, [], false⟩

/-- An outcome whose captured error text marks a timeout. -/
def rTimeoutC8 : HttpExecutionResult :=
  ⟨Option.none, Option.none, Option.none, some "Timeout after 5s", [], false⟩

/-- Entries for end-to-end scenario D: two `server_error` failures with a
`timeout` failure between them. -/
def entry500a : ExecutionLogEntry :=
  ⟨"GET", "http://h/a", [], Option.none, .null, .null, some r500⟩

/-- Second 5xx entry of scenario D. -/
def entry500b : ExecutionLogEntry :=
  ⟨"GET", "http://h/b", [], Option.none, .null, .null, some r500⟩

/-- The timeout entry of scenario D. -/
def entryTimeoutC8 : ExecutionLogEntry :=
  ⟨"GET", "http://h/c", [], Option.none, .null, .null, some rTimeoutC8⟩

/-- The scenario D entry list (kinds interleaved on purpose). -/
def entriesC8 : List ExecutionLogEntry := [entry500a, entryTimeoutC8, entry500b]

/-- An outcome with status 200, a JSON content type and an absent body. -/
def rC10 : HttpExecutionResult :=
  ⟨some 200, Option.none, Option.none, Option.none,
    [("Content-Type", "application/json")], false⟩

/-- Claim C1 counterexample: for scenario A's schema and override
`{"b": 0}`, the synthesized payload is NOT exactly `{"b": 0}` — the walked
mapping stores the root under the literal key `"value"`, which is non-empty
and free of `"[]"`, so the loop does not skip it and the payload gains the
key `"value"` (bound to the first object candidate `{}`), a key the claimed
payload does not have. -/
theorem c1_counterexample :
    dGet (generate_sample_object schemaC1 [("b", Val.int 0)]) "value"
        = some (Val.dict [])
    ∧ dGet [("b", Val.int 0)] "value" = Option.none := ⟨rfl, rfl⟩

/-- Claim C1 amended: for scenario A's schema and override `{"b": 0}` the
synthesizer returns `{"value": {}, "b": 0}`; paths containing `"[]"` and
the empty path are skipped, but the root path is recorded as the literal
`"value"` and is not skipped. -/
theorem c1_amended :
    generate_sample_object schemaC1 [("b", Val.int 0)]
      = [("value", Val.dict []), ("b", Val.int 0)] := rfl

/-- Claim C2 counterexample: the command built from
`{method: "POST", url: "http://h/d", jsonBody: {"a": 1, "b": 0}}` is
exactly `curl -X POST "http://h/d" -d '{"a": 1, "b": 0}' -H "Content-Type:
application/json"`; `json.dumps` uses the default separators `", "` and
`": "`, so the substring `"a":1` (without a space) does not occur in it —
in particular not in the quoted body. -/
theorem c2_counterexample :
    to_curl prims0 entryC2 = curlC2expected
    ∧ containsS curlC2expected "\"a\":1" = false := ⟨rfl, rfl⟩

/-- Claim C2 amended: the command contains `-X POST`, the URL, and the
single-quoted shell-escaped `json.dumps` body, in which the pairs appear as
`"a": 1` and `"b": 0` (with the default separator's space); this holds for
every choice of the abstracted stdlib primitives. -/
theorem c2_amended (pr : PyPrims) :
    containsS (to_curl pr entryC2) "-X POST" = true
    ∧ containsS (to_curl pr entryC2) "http://h/d" = true
    ∧ containsS (to_curl pr entryC2)
        ("-d " ++ squote ++ lbrace ++ "\"a\": 1, \"b\": 0" ++ rbrace ++ squote)
        = true
    ∧ containsS (to_curl pr entryC2) "\"a\": 1" = true
    ∧ containsS (to_curl pr entryC2) "\"b\": 0" = true := by
  have h : to_curl pr entryC2 = curlC2expected := rfl
  rw [h]
  exact ⟨rfl, rfl, rfl, rfl, rfl⟩

/-- Claim C4: for every schema with `enum = [x, y]`, the candidate generator
returns exactly `[x, y]` — the enum check returns before any type, bound,
format or nullability handling. -/
theorem c4_enum_verbatim (s : Schema) (fb : Option String) (x y : Val)
    (h : s.enum? = some [x, y]) : getCandidates s fb = [x, y] := by
  rcases s with ⟨ty, nf, en, mn, mx, fm, minL, maxL, minI, items, props, rf⟩
  simp only [Schema.enum?] at h
  subst h
  rfl

/-- Claim C4 witness: a nullable integer schema with a minimum and the enum
`["on", 3]` yields exactly `["on", 3]`. -/
theorem c4_witness :
    schemaC4.enum? = some [Val.str "on", Val.int 3]
    ∧ getCandidates schemaC4 Option.none = [Val.str "on", Val.int 3] :=
  ⟨rfl, c4_enum_verbatim schemaC4 Option.none _ _ rfl⟩

/-- Claim C3 counterexample: `{"type": "number", "nullable": true,
"minimum": 0, "maximum": 1}` has both bounds set and effective type number,
yet the returned candidate set starts with `null`, which is not a number in
`[0, 1]` — the claim as stated fails on nullable schemas (and likewise on
enum schemas, whose values bypass the filter entirely). -/
theorem c3_counterexample :
    (resolveType schemaC3.type? schemaC3.nullableFlag Option.none).1
        = some "number"
    ∧ schemaC3.minimum? = some (PyFloat.fin 0 1)
    ∧ schemaC3.maximum? = some (PyFloat.fin 1 1)
    ∧ (getCandidates schemaC3 Option.none).head? = some Val.null
    ∧ numPred (PyFloat.fin 0 1) (PyFloat.fin 1 1) Val.null = false :=
  ⟨rfl, rfl, rfl, rfl, rfl⟩

/-- Claim C3 amended: for every enum-free schema of effective type number
with both `minimum` and `maximum` set, every returned candidate is either a
`null` prepended for a nullable schema or a non-NaN number inside the
closed interval `[minimum, maximum]`. -/
theorem c3_amended (s : Schema) (fb : Option String) (mn mx : PyFloat)
    (he : s.enum? = Option.none)
    (ht : (resolveType s.type? s.nullableFlag fb).1 = some "number")
    (hmn : s.minimum? = some mn) (hmx : s.maximum? = some mx) :
    ∀ v ∈ getCandidates s fb,
      ((v.isNull && (resolveType s.type? s.nullableFlag fb).2)
        || numPred mn mx v) = true := by
  rcases s with ⟨ty, nf, en, mn', mx', fm, minL, maxL, minI, items, props, rf⟩
  simp only [Schema.enum?, Schema.minimum?, Schema.maximum?, Schema.type?,
    Schema.nullableFlag] at he hmn hmx ht
  subst he hmn hmx
  intro v hv
  show ((v.isNull && (resolveType ty nf fb).2) || numPred mn mx v) = true
  rw [getCandidates.eq_def] at hv
  simp only [ht, Option.isSome_some, Bool.true_or, Option.getD_some, reduceIte] at hv
  unfold addNull at hv
  by_cases hb : ((resolveType ty nf fb).2
      && !hasNull (List.filter (numPred mn mx) NUMBER_EDGE_CASES)) = true
  · rw [if_pos hb] at hv
    rcases List.mem_cons.mp hv with h | h
    · subst h
      simp only [Val.isNull, Bool.true_and]
      have h2 : (resolveType ty nf fb).2 = true := by
        simp only [Bool.and_eq_true] at hb
        exact hb.1
      rw [h2]
      rfl
    · rw [List.of_mem_filter h, Bool.or_true]
  · rw [if_neg hb] at hv
    rw [List.of_mem_filter hv, Bool.or_true]

/-- Claim C3 witness: `{"type": "number", "minimum": 0, "maximum": 1}`
satisfies the amended theorem's hypotheses, and its candidate `1` is a
non-NaN number within the bounds. -/
theorem c3_witness :
    schemaC3w.enum? = Option.none
    ∧ (resolveType schemaC3w.type? schemaC3w.nullableFlag Option.none).1
        = some "number"
    ∧ schemaC3w.minimum? = some (PyFloat.fin 0 1)
    ∧ schemaC3w.maximum? = some (PyFloat.fin 1 1)
    ∧ (((Val.int 1).isNull
          && (resolveType schemaC3w.type? schemaC3w.nullableFlag Option.none).2)
        || numPred (PyFloat.fin 0 1) (PyFloat.fin 1 1) (Val.int 1)) = true := by
  refine ⟨rfl, rfl, rfl, rfl, ?_⟩
  refine c3_amended schemaC3w Option.none _ _ rfl rfl rfl rfl (Val.int 1) ?_
  have e : getCandidates schemaC3w Option.none
      = [Val.int 0, Val.float (.fin 0 1), Val.int 1, Val.float (.fin 1 2),
         Val.float (.fin 1 10000000000)] := rfl
  rw [e]
  exact List.Mem.tail _ (List.Mem.tail _ (List.Mem.head _))

/-- `hasNull` distributes over append. -/
theorem hasNull_append (a b : List Val) :
    hasNull (a ++ b) = (hasNull a || hasNull b) := by
  induction a with
  | nil => rfl
  | cons v rest ih => cases v <;> simp [hasNull, ih]

/-- Filtering cannot introduce a `null`. -/
theorem hasNull_filter (p : Val → Bool) (l : List Val) (h : hasNull l = false) :
    hasNull (List.filter p l) = false := by
  induction l with
  | nil => rfl
  | cons v rest ih =>
    cases v with
    | null => simp [hasNull] at h
    | _ =>
      simp only [hasNull] at h
      simp only [List.filter]
      split
      · simpa [hasNull] using ih h
      · exact ih h

/-- On a nullable schema whose candidates do not already contain `null`,
`_add_null` makes `null` the first element. -/
theorem addNull_head (l : List Val) (h : hasNull l = false) :
    (addNull true l).head? = some Val.null := by
  unfold addNull
  rw [h]
  rfl

/-- The format probes never contain `null`. -/
theorem hasNull_formatCases (fmt : String) : hasNull (formatCases fmt) = false := by
  unfold formatCases
  split_ifs <;> rfl

/-- The `minLength` probe never contains `null`. -/
theorem hasNull_minLenCases (minL : Option Nat) :
    hasNull (minLenCases minL) = false := by
  cases minL <;> rfl

/-- The `maxLength` probe never contains `null`. -/
theorem hasNull_maxLenCases (maxL : Option Nat) :
    hasNull (maxLenCases maxL) = false := by
  cases maxL <;> rfl

/-- Claim C5 counterexample: `{"type": ["integer", "null"], "enum": [7]}` is
a nullable scalar schema (nullable via the `"null"` type-list member,
effective type integer), but its candidate set is the verbatim enum `[7]`,
whose first element is not `null`. -/
theorem c5_counterexample :
    (resolveType schemaC5.type? schemaC5.nullableFlag Option.none).2 = true
    ∧ (resolveType schemaC5.type? schemaC5.nullableFlag Option.none).1
        = some "integer"
    ∧ (getCandidates schemaC5 Option.none).head? = some (Val.int 7)
    ∧ Val.isNull (Val.int 7) = false :=
  ⟨rfl, rfl, rfl, rfl⟩

/-- Claim C5 amended: for every enum-free nullable schema of scalar
effective type (number, integer, string or boolean), `null` is the first
element of the returned candidate set. -/
theorem c5_amended (s : Schema) (fb : Option String) (t : String)
    (he : s.enum? = Option.none)
    (hn : (resolveType s.type? s.nullableFlag fb).2 = true)
    (ht : (resolveType s.type? s.nullableFlag fb).1 = some t)
    (hs : t = "number" ∨ t = "integer" ∨ t = "string" ∨ t = "boolean") :
    (getCandidates s fb).head? = some Val.null := by
  rcases s with ⟨ty, nf, en, mn, mx, fm, minL, maxL, minI, items, props, rf⟩
  simp only [Schema.enum?, Schema.type?, Schema.nullableFlag] at he hn ht
  subst he
  rw [getCandidates.eq_def]
  simp only [ht, hn]
  rcases hs with h | h | h | h <;> subst h
  · simp only [reduceIte]
    split
    · exact addNull_head _ (hasNull_filter _ _ rfl)
    · exact addNull_head _ rfl
  · have h1 : (some "integer" = some "number") = False := by simp
    simp only [h1, reduceIte, if_false]
    split
    · exact addNull_head _ (hasNull_filter _ _ rfl)
    · exact addNull_head _ rfl
  · have h1 : (some "string" = some "number") = False := by simp
    have h2 : (some "string" = some "integer") = False := by simp
    simp only [h1, h2, reduceIte, if_false]
    refine addNull_head _ ?_
    simp only [hasNull_append, hasNull_formatCases, hasNull_minLenCases,
      hasNull_maxLenCases, Bool.or_false]
    rfl
  · have h1 : (some "boolean" = some "number") = False := by simp
    have h2 : (some "boolean" = some "integer") = False := by simp
    have h3 : (some "boolean" = some "string") = False := by simp
    simp only [h1, h2, h3, reduceIte, if_false]
    exact addNull_head _ rfl

/-- Claim C5 witness: on the enum-free nullable number schema
`{"type": ["number", "null"]}` the first candidate is `null`. -/
theorem c5_witness :
    schemaC5w.enum? = Option.none
    ∧ (resolveType schemaC5w.type? schemaC5w.nullableFlag Option.none).2 = true
    ∧ (resolveType schemaC5w.type? schemaC5w.nullableFlag Option.none).1
        = some "number"
    ∧ (getCandidates schemaC5w Option.none).head? = some Val.null :=
  ⟨rfl, rfl, rfl,
    c5_amended schemaC5w Option.none "number" rfl rfl rfl (Or.inl rfl)⟩

/-- Claim C7: for every execution outcome (and any behaviour of the
abstracted stdlib primitives), `classify` returns exactly the kind selected
by the fixed-priority cascade timeout > crash > server_error > client_error
> invalid_json > none (so the priority order is respected even when several
rule conditions hold), the kind is one of the six members of the taxonomy,
and the flag map is exactly the map marking the one fired rule (no rule for
the terminal none case): its true-count is 1 for every failure and 0 for
none. -/
theorem c7_cascade (pr : PyPrims) (r : HttpExecutionResult) :
    (classify pr r).failure_type = priorityKind pr r
    ∧ (classify pr r).flags = flagsFor (priorityKind pr r)
    ∧ priorityKind pr r ∈
        [FailureType.none, FailureType.crash, FailureType.server_error,
         FailureType.timeout, FailureType.invalid_json, FailureType.client_error]
    ∧ (classify pr r).flags.countP (fun kv => kv.2)
        = (if priorityKind pr r = FailureType.none then 0 else 1) := by
  unfold classify priorityKind rule_timeout rule_crash rule_server_error
    rule_client_error rule_invalid_json
  by_cases h1 : (excTruthy r.exception
      && is_timeout_exception ((r.exception).getD "")) = true
  · simp [h1]
    exact ⟨by decide, by decide⟩
  · rw [Bool.not_eq_true] at h1
    simp only [h1, Bool.false_eq_true, if_false]
    by_cases h2 : excTruthy r.exception = true
    · simp [h2]
      exact ⟨by decide, by decide⟩
    · rw [Bool.not_eq_true] at h2
      simp only [h2, Bool.false_eq_true, if_false]
      cases hsc : r.status_code with
      | some n =>
        by_cases h3 : statusInRange n 500 600 = true
        · simp [h3]
          exact ⟨by decide, by decide⟩
        · rw [Bool.not_eq_true] at h3
          simp only [h3, Bool.false_eq_true, if_false]
          by_cases h4 : statusInRange n 400 500 = true
          · simp [h4]
            exact ⟨by decide, by decide⟩
          · rw [Bool.not_eq_true] at h4
            simp only [h4, Bool.false_eq_true, if_false]
            by_cases h5 : (expects_json r && !is_valid_json_response pr r) = true
            · simp [h5]
              exact ⟨by decide, by decide⟩
            · rw [Bool.not_eq_true] at h5
              simp only [h5, Bool.false_eq_true, if_false]
              simp [flagsFor, flagsInit]
      | none =>
        by_cases h5 : (expects_json r && !is_valid_json_response pr r) = true
        · simp [h5]
          exact ⟨by decide, by decide⟩
        · rw [Bool.not_eq_true] at h5
          simp only [h5, Bool.false_eq_true, if_false]
          simp [flagsFor, flagsInit]

/-- Claim C10: an outcome with no captured exception, a status absent or
outside [400, 600), a JSON `Content-Type` response header and an absent
(`None`) body classifies as `invalid_json`: `_is_valid_json_response`
treats the absent body as unparseable. -/
theorem c10_absent_body_invalid_json (pr : PyPrims) (r : HttpExecutionResult)
    (hexc : r.exception = Option.none)
    (hst : ∀ n, r.status_code = some n → (n < 400 ∨ 600 ≤ n))
    (hct : expects_json r = true)
    (hbody : r.response_body = Option.none) :
    (classify pr r).failure_type = FailureType.invalid_json := by
  unfold classify
  rw [hexc]
  simp only [excTruthy, Bool.false_and, reduceIte]
  have hv : is_valid_json_response pr r = false := by
    unfold is_valid_json_response
    rw [hbody]
  have h5 : (expects_json r && !is_valid_json_response pr r) = true := by
    rw [hct, hv]
    rfl
  cases hsc : r.status_code with
  | none =>
    simp only [h5, reduceIte]
    rfl
  | some n =>
    have hrange := hst n hsc
    have hs1 : statusInRange n 500 600 = false := by
      unfold statusInRange
      rcases hrange with h | h <;> simp <;> omega
    have hs2 : statusInRange n 400 500 = false := by
      unfold statusInRange
      rcases hrange with h | h <;> simp <;> omega
    simp only [hs1, hs2, h5, reduceIte]
    rfl

/-- Claim C10 witness: status 200, `Content-Type: application/json`, no
exception and an absent body classify as `invalid_json`. -/
theorem c10_witness :
    rC10.exception = Option.none
    ∧ expects_json rC10 = true
    ∧ rC10.response_body = Option.none
    ∧ (classify prims0 rC10).failure_type = FailureType.invalid_json :=
  ⟨rfl, rfl, rfl,
    c10_absent_body_invalid_json prims0 rC10 rfl
      (fun n h => by
        injection h with h
        subst h
        exact Or.inl (by decide))
      rfl rfl⟩

/-- A `{p: None}` override dict is observationally identical to the empty
override dict: `dict.get` returns Python `None` both for a missing key and
for an explicit `None` value. -/
theorem ovGet_single_null (p q : String) : ovGet [(p, Val.null)] q = ovGet [] q := by
  unfold ovGet
  by_cases h : p = q <;> simp [h, dGet]

/-- The synthesis loop only observes overrides through `ovGet`, so
pointwise-equal override dicts give identical payloads. -/
theorem sampleLoop_ext (ov1 ov2 : List (String × Val))
    (h : ∀ q, ovGet ov1 q = ovGet ov2 q) :
    ∀ (cs : PathDict) (obj : List (String × Val)),
      sampleLoop ov1 cs obj = sampleLoop ov2 cs obj := by
  intro cs
  induction cs with
  | nil => intro obj; rfl
  | cons pc rest ih =>
    intro obj
    rcases pc with ⟨path, cands⟩
    unfold sampleLoop
    split
    · exact ih _
    · rw [h path]
      exact ih _

/-- Claim C9: overriding any settable field path (non-empty, without `[]`)
that has a non-empty candidate set with the value `null` is silently
ignored — the payload equals the payload with no overrides, because a
`None` override is indistinguishable from an absent key and falls back to
the first candidate. -/
theorem c9_null_override_ignored (s : Schema) (p : String)
    (h1 : p ≠ "") (h2 : containsS p "[]" = false)
    (h3 : ((dGet (generate_edge_cases s) p).getD []).isEmpty = false) :
    generate_sample_object s [(p, Val.null)] = generate_sample_object s [] := by
  unfold generate_sample_object
  exact sampleLoop_ext _ _ (fun q => ovGet_single_null p q) _ _

/-- Claim C9 witness: on scenario A's schema, the settable path `"b"` has a
non-empty candidate set and `{"b": None}` produces the same payload as
`{}`. -/
theorem c9_witness :
    "b" ≠ ""
    ∧ containsS "b" "[]" = false
    ∧ ((dGet (generate_edge_cases schemaC1) "b").getD []).isEmpty = false
    ∧ generate_sample_object schemaC1 [("b", Val.null)]
        = generate_sample_object schemaC1 [] :=
  ⟨by decide, rfl, rfl,
    c9_null_override_ignored schemaC1 "b" (by decide) rfl rfl⟩

/-- A successful prefix test exhibits the suffix. -/
theorem startsWithL_ex (pat : List Char) :
    ∀ l, startsWithL l pat = true → ∃ r, l = pat ++ r := by
  induction pat with
  | nil => intro l _; exact ⟨l, rfl⟩
  | cons b bs ih =>
    intro l h
    cases l with
    | nil => simp [startsWithL] at h
    | cons a as =>
      simp only [startsWithL, Bool.and_eq_true, decide_eq_true_eq] at h
      rcases h with ⟨rfl, h2⟩
      rcases ih as h2 with ⟨r, rfl⟩
      exact ⟨r, rfl⟩

/-- A proper extension of a string is never `<=` the string itself. -/
theorem lexLe_append_not (r : List Char) (hr : r ≠ []) :
    ∀ a : List Char, lexLe (a ++ r) a = false := by
  intro a
  induction a with
  | nil =>
    cases r with
    | nil => exact absurd rfl hr
    | cons c cs => rfl
  | cons c as ih =>
    simp only [List.cons_append, lexLe, Nat.lt_irrefl, if_false]
    exact ih

/-- Totality of the code-point order. -/
theorem lexLe_total (a : List Char) : ∀ b, (lexLe a b || lexLe b a) = true := by
  induction a with
  | nil => intro b; rfl
  | cons c as ih =>
    intro b
    cases b with
    | nil => rfl
    | cons d bs =>
      simp only [lexLe]
      rcases Nat.lt_trichotomy c.toNat d.toNat with h | h | h
      · simp [h]
      · simp [h, Nat.lt_irrefl, ih bs]
      · simp [h, Nat.lt_asymm h]

/-- Transitivity of the code-point order. -/
theorem lexLe_trans : ∀ a b c : List Char,
    lexLe a b = true → lexLe b c = true → lexLe a c = true := by
  intro a
  induction a with
  | nil => intro b c _ _; rfl
  | cons x as ih =>
    intro b c hab hbc
    cases b with
    | nil => simp [lexLe] at hab
    | cons y bs =>
      cases c with
      | nil => simp [lexLe] at hbc
      | cons z cs =>
        simp only [lexLe] at hab hbc ⊢
        rcases Nat.lt_trichotomy x.toNat y.toNat with hxy | hxy | hxy
        · rcases Nat.lt_trichotomy y.toNat z.toNat with hyz | hyz | hyz
          · simp [Nat.lt_trans hxy hyz]
          · simp [hyz ▸ hxy]
          · simp [Nat.lt_asymm hyz, hyz] at hbc
        · simp only [hxy, Nat.lt_irrefl, if_false] at hab
          rcases Nat.lt_trichotomy y.toNat z.toNat with hyz | hyz | hyz
          · simp [hxy ▸ hyz]
          · have h1 : ¬ x.toNat < z.toNat := by omega
            have h2 : ¬ z.toNat < x.toNat := by omega
            simp only [hyz, Nat.lt_irrefl, if_false] at hbc
            simp only [h1, h2, if_false]
            exact ih bs cs hab hbc
          · simp [Nat.lt_asymm hyz, hyz] at hbc
        · simp [Nat.lt_asymm hxy, hxy] at hab

/-- Members of an insertion are the inserted element or old members. -/
theorem insertSorted_mem (x y : String) :
    ∀ l, y ∈ insertSorted x l → y = x ∨ y ∈ l := by
  intro l
  induction l with
  | nil =>
    intro h
    simp [insertSorted] at h
    exact Or.inl h
  | cons z zs ih =>
    intro h
    unfold insertSorted at h
    split at h
    · rcases List.mem_cons.mp h with h | h
      · exact Or.inl h
      · exact Or.inr h
    · rcases List.mem_cons.mp h with h | h
      · exact Or.inr (List.mem_cons.mpr (Or.inl h))
      · rcases ih h with h | h
        · exact Or.inl h
        · exact Or.inr (List.mem_cons.mpr (Or.inr h))

/-- Insertion preserves sortedness. -/
theorem insertSorted_sorted (x : String) :
    ∀ l, List.Pairwise (fun a b => strLe a b = true) l →
      List.Pairwise (fun a b => strLe a b = true) (insertSorted x l) := by
  intro l
  induction l with
  | nil => intro _; simp [insertSorted]
  | cons z zs ih =>
    intro h
    rcases List.pairwise_cons.mp h with ⟨hz, hzs⟩
    unfold insertSorted
    split
    · refine List.pairwise_cons.mpr ⟨?_, h⟩
      intro b hb
      rename_i hxz
      rcases List.mem_cons.mp hb with rfl | hb
      · exact hxz
      · exact lexLe_trans _ _ _ hxz (hz b hb)
    · refine List.pairwise_cons.mpr ⟨?_, ih hzs⟩
      intro b hb
      rcases insertSorted_mem x b zs hb with rfl | hb
      · rename_i hxz
        rw [Bool.not_eq_true] at hxz
        have htot := lexLe_total z.data b.data
        unfold strLe at hxz
        rcases Bool.or_eq_true_iff.mp htot with h | h
        · exact h
        · rw [hxz] at h
          exact absurd h (by simp)
      · exact hz b hb

/-- The model of Python `sorted` produces a `<=`-sorted list. -/
theorem pySorted_sorted (l : List String) :
    List.Pairwise (fun a b => strLe a b = true) (pySorted l) := by
  induction l with
  | nil => exact List.Pairwise.nil
  | cons x xs ih => exact insertSorted_sorted x _ ih

/-- The leaf filter only returns members of its input. -/
theorem leafFilter_sub (y : String) :
    ∀ l, y ∈ leafFilter l → y ∈ l := by
  intro l
  induction l with
  | nil => intro h; exact h
  | cons p rest ih =>
    intro h
    unfold leafFilter at h
    split at h
    · exact List.mem_cons.mpr (Or.inr (ih h))
    · rcases List.mem_cons.mp h with rfl | h
      · exact List.mem_cons.mpr (Or.inl rfl)
      · exact List.mem_cons.mpr (Or.inr (ih h))

/-- A descendant path is the ancestor plus a non-empty suffix. -/
theorem descB_ex (p q : String) (h : descB p q = true) :
    ∃ r, q.data = p.data ++ r ∧ r ≠ [] := by
  unfold descB at h
  rcases Bool.or_eq_true_iff.mp h with h | h
  · rcases startsWithL_ex _ _ h with ⟨r, hr⟩
    exact ⟨'.' :: r, by simpa using hr, by simp⟩
  · rcases startsWithL_ex _ _ h with ⟨r, hr⟩
    exact ⟨'[' :: ']' :: r, by simpa using hr, by simp⟩

/-- An ancestor's descendant never sorts at or before the ancestor: the
descendant is lexicographically strictly larger. -/
theorem strLe_desc_false (p q : String) (h : descB q p = true) :
    strLe p q = false := by
  rcases descB_ex q p h with ⟨r, hr, hne⟩
  unfold strLe
  rw [hr]
  exact lexLe_append_not r hne q.data

/-- Key property of the leaf filter on a sorted path list: the output
contains no ancestor/descendant pair.  The filter only inspects LATER
entries (`paths[i+1:]`), which suffices because a descendant always sorts
after its ancestor. -/
theorem leafFilter_no_desc :
    ∀ l, List.Pairwise (fun a b => strLe a b = true) l →
      ∀ p q, p ∈ leafFilter l → q ∈ leafFilter l → descB p q = false := by
  intro l
  induction l with
  | nil => intro _ p q hp _; exact absurd hp (by simp [leafFilter])
  | cons a rest ih =>
    intro hs p q hp hq
    rcases List.pairwise_cons.mp hs with ⟨ha, hrest⟩
    unfold leafFilter at hp hq
    by_cases hany : rest.any (fun p2 => descB a p2) = true
    · rw [if_pos hany] at hp hq
      exact ih hrest p q hp hq
    · rw [Bool.not_eq_true] at hany
      rw [hany] at hp hq
      simp only [Bool.false_eq_true, if_false] at hp hq
      rcases List.mem_cons.mp hp with hpa | hp
      · rcases List.mem_cons.mp hq with hqa | hq
        · rw [hpa, hqa]
          rw [Bool.eq_false_iff]
          intro hd
          rcases descB_ex a a hd with ⟨r, hr, hne⟩
          have hlen := congrArg List.length hr
          rw [List.length_append] at hlen
          exact hne (List.eq_nil_of_length_eq_zero (by omega))
        · rw [hpa]
          rw [Bool.eq_false_iff]
          intro hd
          have hx : rest.any (fun p2 => descB a p2) = true :=
            List.any_eq_true.mpr ⟨q, leafFilter_sub q rest hq, hd⟩
          rw [hany] at hx
          exact absurd hx (by simp)
      · rcases List.mem_cons.mp hq with hqa | hq
        · rw [hqa]
          rw [Bool.eq_false_iff]
          intro hd
          have hle : strLe a p = true := ha p (leafFilter_sub p rest hp)
          rw [strLe_desc_false a p hd] at hle
          exact absurd hle (by simp)
        · exact ih hrest p q hp hq

/-- Keys of the rebuilt flat mapping come from the leaf-path list. -/
theorem filterMap_keys_mem (all : PathDict) :
    ∀ (l : List String) (p : String),
      p ∈ (l.filterMap (fun p => (dGet all p).map (fun cs => (p, cs)))).map Prod.fst
      → p ∈ l := by
  intro l
  induction l with
  | nil => intro p h; simpa using h
  | cons x xs ih =>
    intro p h
    simp only [List.filterMap_cons] at h
    cases hx : dGet all x with
    | none =>
      simp only [hx, Option.map_none'] at h
      exact List.mem_cons.mpr (Or.inr (ih p h))
    | some cs =>
      simp only [hx, Option.map_some', List.map_cons] at h
      rcases List.mem_cons.mp h with rfl | h
      · exact List.mem_cons.mpr (Or.inl rfl)
      · exact List.mem_cons.mpr (Or.inr (ih p h))

/-- Claim C6: for every schema, the leaf-only projection
`generate_edge_cases_flat` never contains two distinct paths where one is a
structural descendant of the other (prefixed by the other plus `"."` or
`"[]"`). -/
theorem c6_flat_no_desc (s : Schema) (p q : String)
    (hp : p ∈ (generate_edge_cases_flat s).map Prod.fst)
    (hq : q ∈ (generate_edge_cases_flat s).map Prod.fst)
    (hne : p ≠ q) :
    descB p q = false := by
  unfold generate_edge_cases_flat at hp hq
  exact leafFilter_no_desc _ (pySorted_sorted _) p q
    (filterMap_keys_mem _ _ p hp) (filterMap_keys_mem _ _ q hq)

/-- Claim C6 witness: scenario A's schema flattens to the two paths `"b"`
and `"value"`, and neither is a descendant of the other. -/
theorem c6_witness :
    "b" ∈ (generate_edge_cases_flat schemaC1).map Prod.fst
    ∧ "value" ∈ (generate_edge_cases_flat schemaC1).map Prod.fst
    ∧ "b" ≠ "value"
    ∧ descB "b" "value" = false := by
  have e : (generate_edge_cases_flat schemaC1).map Prod.fst = ["b", "value"] := rfl
  refine ⟨by rw [e]; exact List.Mem.head _,
          by rw [e]; exact List.Mem.tail _ (List.Mem.head _),
          by decide, ?_⟩
  exact c6_flat_no_desc schemaC1 "b" "value"
    (by rw [e]; exact List.Mem.head _)
    (by rw [e]; exact List.Mem.tail _ (List.Mem.head _))
    (by decide)

/-- Appending an entry to its kind's group: lookup at that kind grows by the
entry. -/
theorem appendGroup_lookup_same (k : FailureType) (e : ExecutionLogEntry) :
    ∀ acc, List.lookup k (appendGroup acc k e)
      = some (((List.lookup k acc).getD []) ++ [e]) := by
  intro acc
  induction acc with
  | nil => simp [appendGroup, List.lookup]
  | cons g rest ih =>
    rcases g with ⟨k', l'⟩
    unfold appendGroup
    by_cases h : k' = k
    · subst h
      simp [List.lookup]
    · rw [if_neg h]
      simp only [List.lookup]
      have hb : (k == k') = false := by
        simp [Ne.symm h]
      rw [hb]
      simpa using ih

/-- Appending an entry to another kind's group leaves a lookup unchanged. -/
theorem appendGroup_lookup_other (k k' : FailureType) (hkk : k' ≠ k)
    (e : ExecutionLogEntry) :
    ∀ acc, List.lookup k (appendGroup acc k' e) = List.lookup k acc := by
  intro acc
  have hb : (k == k') = false := by simp [Ne.symm hkk]
  induction acc with
  | nil =>
    simp only [appendGroup, List.lookup]
    rw [hb]
  | cons g rest ih =>
    rcases g with ⟨k'', l''⟩
    unfold appendGroup
    by_cases h : k'' = k'
    · subst h
      simp only [List.lookup]
      rw [hb]
    · rw [if_neg h]
      simp only [List.lookup]
      cases hc : (k == k'') with
      | true => rfl
      | false => exact ih

/-- Grouping-fold invariant, populated case: folding the remaining entries
appends exactly the entries classifying to `k`, in input order. -/
theorem fold_lookup_some (pr : PyPrims) (k : FailureType)
    (hk : k ≠ FailureType.none) :
    ∀ (es : List ExecutionLogEntry) (acc : List (FailureType × List ExecutionLogEntry))
      (l0 : List ExecutionLogEntry),
      List.lookup k acc = some l0 →
      List.lookup k (es.foldl (groupStep pr) acc)
        = some (l0 ++ es.filter (failsWith pr k)) := by
  intro es
  induction es with
  | nil => intro acc l0 h; simpa using h
  | cons e rest ih =>
    intro acc l0 h
    rw [List.foldl_cons, List.filter_cons]
    cases hres : e.result with
    | none =>
      have hstep : groupStep pr acc e = acc := by
        unfold groupStep
        rw [hres]
      have hf : failsWith pr k e = false := by
        unfold failsWith
        rw [hres]
      rw [hstep, hf]
      simp only [Bool.false_eq_true, if_false]
      exact ih acc l0 h
    | some r =>
      have hstep : groupStep pr acc e
          = if (classify pr r).is_failure = true
              then appendGroup acc (classify pr r).failure_type e else acc := by
        unfold groupStep
        rw [hres]
      have hfw : failsWith pr k e = decide ((classify pr r).failure_type = k) := by
        unfold failsWith
        rw [hres]
      by_cases hc : (classify pr r).failure_type = k
      · have hfail : (classify pr r).is_failure = true := by
          unfold FailureClassification.is_failure
          rw [hc]
          exact decide_eq_true hk
        have hf : failsWith pr k e = true := by
          rw [hfw]
          exact decide_eq_true hc
        rw [hstep, if_pos hfail, hf, if_pos rfl, hc]
        have happ := appendGroup_lookup_same k e acc
        rw [h] at happ
        rw [ih (appendGroup acc k e) (l0 ++ [e]) (by simpa using happ)]
        simp
      · have hf : failsWith pr k e = false := by
          rw [hfw]
          exact decide_eq_false hc
        rw [hstep, hf]
        simp only [Bool.false_eq_true, if_false]
        by_cases hfail : (classify pr r).is_failure = true
        · rw [if_pos hfail]
          have happ := appendGroup_lookup_other k (classify pr r).failure_type hc e acc
          rw [← happ] at h
          exact ih _ l0 h
        · rw [Bool.not_eq_true] at hfail
          rw [hfail]
          simp only [Bool.false_eq_true, if_false]
          exact ih acc l0 h

/-- Grouping-fold invariant, empty-start case: the group for `k` exists
after the fold exactly when some entry classifies to `k`, and then holds
those entries in input order. -/
theorem fold_lookup_none_start (pr : PyPrims) (k : FailureType)
    (hk : k ≠ FailureType.none) :
    ∀ (es : List ExecutionLogEntry) (acc : List (FailureType × List ExecutionLogEntry)),
      List.lookup k acc = Option.none →
      List.lookup k (es.foldl (groupStep pr) acc)
        = (match es.filter (failsWith pr k) with
           | [] => Option.none
           | l => some l) := by
  intro es
  induction es with
  | nil => intro acc h; simpa using h
  | cons e rest ih =>
    intro acc h
    rw [List.foldl_cons, List.filter_cons]
    cases hres : e.result with
    | none =>
      have hstep : groupStep pr acc e = acc := by
        unfold groupStep
        rw [hres]
      have hf : failsWith pr k e = false := by
        unfold failsWith
        rw [hres]
      rw [hstep, hf]
      simp only [Bool.false_eq_true, if_false]
      exact ih acc h
    | some r =>
      have hstep : groupStep pr acc e
          = if (classify pr r).is_failure = true
              then appendGroup acc (classify pr r).failure_type e else acc := by
        unfold groupStep
        rw [hres]
      have hfw : failsWith pr k e = decide ((classify pr r).failure_type = k) := by
        unfold failsWith
        rw [hres]
      by_cases hc : (classify pr r).failure_type = k
      · have hfail : (classify pr r).is_failure = true := by
          unfold FailureClassification.is_failure
          rw [hc]
          exact decide_eq_true hk
        have hf : failsWith pr k e = true := by
          rw [hfw]
          exact decide_eq_true hc
        rw [hstep, if_pos hfail, hf, if_pos rfl, hc]
        have happ := appendGroup_lookup_same k e acc
        rw [h] at happ
        rw [fold_lookup_some pr k hk rest (appendGroup acc k e) [e]
          (by simpa using happ)]
        rfl
      · have hf : failsWith pr k e = false := by
          rw [hfw]
          exact decide_eq_false hc
        rw [hstep, hf]
        simp only [Bool.false_eq_true, if_false]
        by_cases hfail : (classify pr r).is_failure = true
        · rw [if_pos hfail]
          have happ := appendGroup_lookup_other k (classify pr r).failure_type hc e acc
          rw [← happ] at h
          exact ih _ h
        · rw [Bool.not_eq_true] at hfail
          rw [hfail]
          simp only [Bool.false_eq_true, if_false]
          exact ih acc h

/-- The grouping fold never creates a group for the kind `none` (only
failures are appended). -/
theorem fold_lookup_nonekind (pr : PyPrims) :
    ∀ (es : List ExecutionLogEntry) (acc : List (FailureType × List ExecutionLogEntry)),
      List.lookup FailureType.none acc = Option.none →
      List.lookup FailureType.none (es.foldl (groupStep pr) acc) = Option.none := by
  intro es
  induction es with
  | nil => intro acc h; simpa using h
  | cons e rest ih =>
    intro acc h
    rw [List.foldl_cons]
    cases hres : e.result with
    | none =>
      have hstep : groupStep pr acc e = acc := by
        unfold groupStep
        rw [hres]
      rw [hstep]
      exact ih acc h
    | some r =>
      have hstep : groupStep pr acc e
          = if (classify pr r).is_failure = true
              then appendGroup acc (classify pr r).failure_type e else acc := by
        unfold groupStep
        rw [hres]
      rw [hstep]
      by_cases hfail : (classify pr r).is_failure = true
      · rw [if_pos hfail]
        have hne : (classify pr r).failure_type ≠ FailureType.none := by
          unfold FailureClassification.is_failure at hfail
          exact of_decide_eq_true hfail
        have happ := appendGroup_lookup_other FailureType.none
          (classify pr r).failure_type hne e acc
        refine ih _ ?_
        rw [happ]
        exact h
      · rw [Bool.not_eq_true] at hfail
        rw [hfail]
        simp only [Bool.false_eq_true, if_false]
        exact ih acc h

/-- The six `.value` strings are pairwise distinct, so the string-keyed
report lookup mirrors the kind-keyed group lookup. -/
theorem ftValue_inj (a b : FailureType) (h : a.value = b.value) : a = b := by
  cases a <;> cases b <;> first
    | rfl
    | exact absurd h (by decide)

/-- Looking up `k.value` in the rendered report is looking up `k` in the
groups and rendering each entry. -/
theorem mapped_lookup (pr : PyPrims) (k : FailureType) :
    ∀ grouped : List (FailureType × List ExecutionLogEntry),
      dGet (grouped.map (fun g => (g.1.value, g.2.map (to_curl pr)))) k.value
        = (List.lookup k grouped).map (fun l => l.map (to_curl pr)) := by
  intro grouped
  induction grouped with
  | nil => rfl
  | cons g rest ih =>
    rcases g with ⟨k', l'⟩
    simp only [List.map_cons, dGet, List.lookup]
    by_cases h : k' = k
    · subst h
      rw [if_pos rfl]
      have hb : (k' == k') = true := by simp
      rw [hb]
      rfl
    · have hb1 : (k'.value = k.value) = False := by
        simp only [eq_iff_iff, iff_false]
        intro hv
        exact h (ftValue_inj k' k hv)
      have hb2 : (k == k') = false := by simp [Ne.symm h]
      rw [hb2]
      simp only [hb1, if_false]
      exact ih

/-- Claim C8: for every entry list, the report never has a `"none"` key, and
for every failure kind `k` the key `k.value` is present exactly when some
entry's result classifies to `k`, in which case it holds one reproduction
command per such entry, in the original input order. -/
theorem c8_report (pr : PyPrims) (entries : List ExecutionLogEntry)
    (k : FailureType) (hk : k ≠ FailureType.none) :
    dGet (generate_report pr entries) (FailureType.none).value = Option.none
    ∧ dGet (generate_report pr entries) k.value
        = (match entries.filter (failsWith pr k) with
           | [] => Option.none
           | l => some (l.map (to_curl pr))) := by
  constructor
  · unfold generate_report group_failures_by_type
    rw [mapped_lookup pr FailureType.none]
    rw [fold_lookup_nonekind pr entries [] rfl]
    rfl
  · unfold generate_report group_failures_by_type
    rw [mapped_lookup pr k]
    rw [fold_lookup_none_start pr k hk entries [] rfl]
    cases hfil : entries.filter (failsWith pr k) with
    | nil => rfl
    | cons x xs => rfl

/-- Claim C8 witness — end-to-end scenario D: two `server_error` entries
with a `timeout` entry between them produce a report with exactly the keys
`"server_error"` (2 commands, input order) and `"timeout"` (1 command). -/
theorem c8_witness :
    FailureType.server_error ≠ FailureType.none
    ∧ dGet (generate_report prims0 entriesC8) "none" = Option.none
    ∧ dGet (generate_report prims0 entriesC8) "server_error"
        = some [to_curl prims0 entry500a, to_curl prims0 entry500b]
    ∧ (generate_report prims0 entriesC8).map Prod.fst
        = ["server_error", "timeout"]
    ∧ dGet (generate_report prims0 entriesC8) "timeout"
        = some [to_curl prims0 entryTimeoutC8] := by
  have h := c8_report prims0 entriesC8 FailureType.server_error (by decide)
  have ht := c8_report prims0 entriesC8 FailureType.timeout (by decide)
  exact ⟨by decide, h.1, h.2.trans rfl, rfl, ht.2.trans rfl⟩
